import Mathlib

/-!
Verification of the webview/extension message bridge of the nov4.ix repository.

The client side (`src/services/vscodeApi.ts`, class `VscodeApi`) owns a
pending-request table and a subscriber map; the host side
(`src/vscode-extension/src/panels/CodeAssistantPanel.ts`) dispatches the
command catalog.  Both are embedded shallowly below: JavaScript `Map`s become
association lists, `Set` objects become duplicate-free lists held in a heap
(`setStore`) so that closure capture of a `Set` reference is modelled by
index, promise continuations become log entries, and `setTimeout` becomes a
queue of deferred messages.
-/

namespace Nov4

/-- JSON-like values carried in message payloads. -/
inductive JValue where
  | null
  | bool (b : Bool)
  | str (s : String)
  | num (n : Nat)
  | arr (xs : List JValue)
  | obj (fields : List (String × JValue))

/-- Field lookup on an object value, `none` elsewhere (JS `payload.k` being undefined). -/
def JValue.getField : JValue → String → Option JValue
  | .obj fs, k => fs.lookup k
  | _, _ => none

/-- String field access with JS-style fallback to the empty string. -/
def JValue.getStr (v : JValue) (k : String) : String :=
  match v.getField k with
  | some (.str s) => s
  | _ => ""

/-- The wire envelope `{ command, payload, requestId?, error? }` shared by the
webview client and the extension host. -/
structure Message where
  command : String
  payload : JValue
  requestId : Option String
  error : Option String

/-- JS truthiness of a string: falsy exactly when empty. -/
def strTruthy (s : String) : Bool := !s.isEmpty

/-- JS truthiness of an optional string (`undefined` and `""` are falsy). -/
def optTruthy : Option String → Bool
  | none => false
  | some s => strTruthy s

/-- First binding for key `k` in an association list (JS `Map.get`). -/
def lookupKey {α : Type} (k : String) : List (String × α) → Option α
  | [] => none
  | (k', v) :: rest => if k' = k then some v else lookupKey k rest

/-- Insert or overwrite the binding for `k` (JS `Map.set`). -/
def setKey {α : Type} (k : String) (v : α) : List (String × α) → List (String × α)
  | [] => [(k, v)]
  | (k', v') :: rest => if k' = k then (k', v) :: rest else (k', v') :: setKey k v rest

/-- Remove the binding for `k` (JS `Map.delete`). -/
def eraseKey {α : Type} (k : String) : List (String × α) → List (String × α)
  | [] => []
  | (k', v) :: rest => if k' = k then rest else (k', v) :: eraseKey k rest

/-- JS `Set.add`: append the element unless it is already present. -/
def addElem (x : Nat) (l : List Nat) : List Nat :=
  if x ∈ l then l else l ++ [x]

/-- How a pending continuation was settled: promise resolution or rejection. -/
inductive SettleKind where
  | resolved (payload : JValue)
  | rejected (message : String)

/-- State of the client bridge (`class VscodeApi`).  Callbacks are opaque
identifiers (`Nat`); `setStore` is the heap of `Set` objects so that the
subscriber map and unsubscribe closures hold references (`Nat` indices) into
it; `settled`, `calls`, `errLog`, `outbox` are observation logs; `timers`
holds messages queued by `setTimeout`; `nextCall` numbers `request` calls so
that each continuation has an identity. -/
structure VscodeApi where
  pendingRequests : List (String × Nat)
  subscribers : List (String × Nat)
  setStore : List (List Nat)
  settled : List (Nat × SettleKind)
  calls : List (Nat × JValue)
  errLog : List Nat
  nextCall : Nat
  hasApi : Bool
  outbox : List Message
  timers : List Message

/-- The bridge as constructed: empty tables, no log entries. -/
def initApi (hasApi : Bool) : VscodeApi :=
  ⟨[], [], [], [], [], [], 0, hasApi, [], []⟩

/-- `VscodeApi.handleMessage`: a truthy `requestId` selects the response path
(settle and delete the matching pending entry, or drop), otherwise the
notification path (invoke every subscriber for `command`, catching per-callback
exceptions; `throws cb = true` marks a callback whose invocation throws). -/
def handleMessage (throws : Nat → Bool) (s : VscodeApi) (m : Message) : VscodeApi :=
  if optTruthy m.requestId then
    let rid := m.requestId.getD ""
    match lookupKey rid s.pendingRequests with
    | some idx =>
      let k := if optTruthy m.error then SettleKind.rejected (m.error.getD "")
               else SettleKind.resolved m.payload
      { s with settled := s.settled ++ [(idx, k)],
               pendingRequests := eraseKey rid s.pendingRequests }
    | none => s
  else
    match lookupKey m.command s.subscribers with
    | some sid =>
      let cbs := s.setStore.getD sid []
      { s with calls := s.calls ++ cbs.map (fun c => (c, m.payload)),
               errLog := s.errLog ++ cbs.filter (fun c => throws c) }
    | none => s

/-- Correlation id generated by `request`:
backtick-free rendering of the template `command_Date.now()_Math.random()`;
the timestamp and random component are inputs of the model. -/
def genId (command ts rand : String) : String :=
  command ++ "_" ++ ts ++ "_" ++ rand

/-- The message of the mock error synthesized when no VS Code API is attached. -/
def mockErrorMessage (command : String) : String :=
  "VS Code API is not available in a standard browser environment. Command \""
    ++ command ++ "\" was not sent."

/-- `VscodeApi.request`: store a fresh continuation under the generated id,
then either post the request envelope (transport attached) or queue the
synthesized failure response on a deferred tick (`setTimeout`). -/
def request (s : VscodeApi) (command : String) (payload : JValue) (ts rand : String) :
    VscodeApi :=
  let requestId := genId command ts rand
  let s' := { s with pendingRequests := setKey requestId s.nextCall s.pendingRequests,
                     nextCall := s.nextCall + 1 }
  if s'.hasApi then
    { s' with outbox := s'.outbox ++ [⟨command, payload, some requestId, none⟩] }
  else
    { s' with timers := s'.timers ++
        [⟨"response", JValue.null, some requestId, some (mockErrorMessage command)⟩] }

/-- The value captured by the unsubscribe closure returned by `subscribe`:
the `Set` reference (`setRef` into `setStore`), the command name and the
callback. -/
structure Unsub where
  setRef : Nat
  command : String
  callback : Nat

/-- `VscodeApi.subscribe`: create the command's `Set` if absent, add the
callback, and return the unsubscribe closure's captured data. -/
def subscribe (s : VscodeApi) (command : String) (cb : Nat) : VscodeApi × Unsub :=
  let alloc :=
    match lookupKey command s.subscribers with
    | some sid => (s, sid)
    | none =>
      let sid := s.setStore.length
      ({ s with setStore := s.setStore ++ [[]],
                subscribers := s.subscribers ++ [(command, sid)] }, sid)
  let s1 := alloc.1
  let sid := alloc.2
  let s2 := { s1 with setStore := s1.setStore.set sid (addElem cb (s1.setStore.getD sid [])) }
  (s2, ⟨sid, command, cb⟩)

/-- The unsubscribe closure: delete the callback from the captured `Set`; if
that `Set` is now empty, delete the command's binding from the subscriber
map. -/
def unsubscribe (s : VscodeApi) (u : Unsub) : VscodeApi :=
  let cur := (s.setStore.getD u.setRef []).erase u.callback
  let s' := { s with setStore := s.setStore.set u.setRef cur }
  if cur.length = 0 then { s' with subscribers := eraseKey u.command s'.subscribers }
  else s'

/-- Callbacks a notification for `command` would reach: the contents of the
`Set` currently bound in the subscriber map, if any. -/
def subsFor (s : VscodeApi) (command : String) : List Nat :=
  match lookupKey command s.subscribers with
  | some sid => s.setStore.getD sid []
  | none => []

/-- Well-formedness of the subscriber structures, maintained by the bridge:
the subscriber map has no duplicate command keys, every bound `Set` reference
points into the store, and every stored `Set` is duplicate-free. -/
def WFsubs (s : VscodeApi) : Prop :=
  (s.subscribers.map Prod.fst).Nodup
  ∧ (∀ p ∈ s.subscribers, p.2 < s.setStore.length)
  ∧ (∀ l ∈ s.setStore, l.Nodup)

instance (s : VscodeApi) : Decidable (WFsubs s) := by
  unfold WFsubs
  infer_instance

/-- Events affecting the client bridge: a `request` call (with the sampled
timestamp and random component), receipt of an inbound envelope, and the
firing of the earliest queued `setTimeout`. -/
inductive Act where
  | req (command : String) (payload : JValue) (ts rand : String)
  | recv (m : Message)
  | fire

/-- One event.  Inbound envelopes reach `handleMessage` only when the message
listener was installed, i.e. when the VS Code API was acquired. -/
def stepAct (throws : Nat → Bool) (s : VscodeApi) : Act → VscodeApi
  | .req c p ts r => request s c p ts r
  | .recv m => if s.hasApi then handleMessage throws s m else s
  | .fire =>
    match s.timers with
    | [] => s
    | t :: rest => handleMessage throws { s with timers := rest } t

/-- Run a sequence of events. -/
def runActs (throws : Nat → Bool) (s : VscodeApi) (acts : List Act) : VscodeApi :=
  acts.foldl (stepAct throws) s

/-- Environment seen by the host dispatcher
(`CodeAssistantPanel._setWebviewMessageListener`): whether a workspace folder
is open, its name and path, the workspace files (path to content; `findFiles`
enumeration and the `vscode.workspace.fs` operations act on it), the user's
answer to the `deleteFile` warning dialog (`some "Delete"` for the button,
`none` for decline/dismiss), the `createFile` input-box result (`none` when
dismissed), the current clock tick, and the message text of a thrown
filesystem error. -/
structure HostEnv where
  hasWorkspace : Bool
  workspaceName : String
  workspacePath : String
  files : List (String × String)
  confirmAnswer : Option String
  inputBoxAnswer : Option String
  now : Nat
  fsErrorMessage : String

/-- What one dispatch turn produced: the `webview.postMessage` calls in order,
and the workspace files afterwards. -/
structure DispatchResult where
  posted : List Message
  files : List (String × String)

/-- A file-tree entry of the `getInitialData` reply. -/
def fileTreeItem (path : String) : JValue :=
  .obj [("path", .str path), ("type", .str "blob"), ("sha", .str "")]

/-- The `getInitialData` reply payload. -/
def initialData (env : HostEnv) : JValue :=
  .obj
    [ ("user", .obj [("id", .str "vscode-user"), ("name", .str "VS Code User"),
        ("avatarUrl", .str "")])
    , ("repo", .obj
        [ ("id", .str ("vscode-repo-" ++ env.workspacePath))
        , ("name", .str env.workspaceName)
        , ("owner", .obj [("login", .str "local")])
        , ("description", .str "A local project open in VS Code.")
        , ("private", .bool true)
        , ("updatedAt", .str (toString env.now))
        , ("language", .str "Local")
        , ("defaultBranch", .str "main")
        , ("fileTree", .arr []) ])
    , ("fileTree", .arr (env.files.map (fun p => fileTreeItem p.1))) ]

/-- The dispatcher's message listener, one arriving Request envelope per turn.
Faithful to the source: the no-workspace guard answers every command except
`getInitialData`; `deleteFile` posts the tree notification only when
`vscode.workspace.fs.delete` succeeds (the file exists), and the `catch`
branch turns a thrown filesystem error into an error response; `createFile`
treats a dismissed prompt and an empty path alike (JS truthiness of
`newFilePath`); a command name outside the catalog falls through the `switch`
with no response. -/
def dispatch (env : HostEnv) (command : String) (payload : JValue) (requestId : String) :
    DispatchResult :=
  let respond := fun (data : JValue) (error : Option String) =>
    Message.mk "response" data (some requestId) error
  if env.hasWorkspace = false ∧ command ≠ "getInitialData" then
    ⟨[respond .null (some "No workspace is open.")], env.files⟩
  else if command = "getInitialData" then
    if env.hasWorkspace = false then
      ⟨[respond .null
          (some "No workspace folder is open. Please open a project to use the assistant.")],
        env.files⟩
    else
      ⟨[respond (initialData env) none], env.files⟩
  else if command = "getFileContent" then
    let path := payload.getStr "path"
    match lookupKey path env.files with
    | some content =>
      ⟨[respond (.obj [("content", .str content), ("sha", .str (toString env.now))]) none],
        env.files⟩
    | none =>
      ⟨[respond .null (some ("Failed to read file " ++ path ++ ": " ++ env.fsErrorMessage))],
        env.files⟩
  else if command = "updateFileContent" then
    let path := payload.getStr "path"
    let newContent := payload.getStr "newContent"
    ⟨[respond (.obj [("newSha", .str (toString env.now))]) none],
      setKey path newContent env.files⟩
  else if command = "deleteFile" then
    let path := payload.getStr "path"
    if env.confirmAnswer = some "Delete" then
      if (lookupKey path env.files).isSome then
        ⟨[Message.mk "refreshFileTree" .null none none,
          respond (.obj [("success", .bool true)]) none],
          eraseKey path env.files⟩
      else
        ⟨[respond .null (some ("Failed to delete file " ++ path ++ ": " ++ env.fsErrorMessage))],
          env.files⟩
    else
      ⟨[respond .null (some "Deletion cancelled by user.")], env.files⟩
  else if command = "createFile" then
    match env.inputBoxAnswer with
    | some newFilePath =>
      if newFilePath ≠ "" then
        ⟨[Message.mk "refreshFileTree" .null none none,
          respond (.obj [("success", .bool true), ("path", .str newFilePath)]) none],
          setKey newFilePath "" env.files⟩
      else
        ⟨[respond .null (some "File creation cancelled by user.")], env.files⟩
    | none => ⟨[respond .null (some "File creation cancelled by user.")], env.files⟩
  else
    ⟨[], env.files⟩

/-- An envelope is the file-tree-changed push notification (the spec's
`treeChanged`): the `refreshFileTree` command with no correlation id. -/
def isTreeNotif (m : Message) : Bool :=
  m.requestId = none && m.command = "refreshFileTree"

/-- Number of file-tree-changed notifications among a list of posted
envelopes. -/
def treeNotifCount (ms : List Message) : Nat :=
  (ms.filter isTreeNotif).length

/-- An envelope is a Response carrying the given correlation id. -/
def isResponseFor (rid : String) (m : Message) : Bool :=
  m.requestId = some rid

/-- The command catalog of the dispatcher's `switch`. -/
def catalog : List String :=
  ["getInitialData", "getFileContent", "updateFileContent", "deleteFile", "createFile"]

/-- One `request` call of a concurrent batch: the command, the payload, and
the sampled timestamp and random component of its correlation id. -/
structure ReqCall where
  command : String
  payload : JValue
  ts : String
  rand : String

/-- The correlation id a `ReqCall` generates. -/
def ReqCall.id (q : ReqCall) : String := genId q.command q.ts q.rand

/-- The bridge event of a `ReqCall`. -/
def ReqCall.act (q : ReqCall) : Act := Act.req q.command q.payload q.ts q.rand

/-- Pending-table entries a batch of `request` calls creates, the calls
numbered from `n`. -/
def reqEntries : List ReqCall → Nat → List (String × Nat)
  | [], _ => []
  | q :: rest, n => (q.id, n) :: reqEntries rest (n + 1)

/-! Association-list lemmas for the JS `Map` model. -/

theorem lookupKey_eq_none {α : Type} {k : String} {l : List (String × α)} :
    lookupKey k l = none ↔ k ∉ l.map Prod.fst := by
  induction l with
  | nil => simp [lookupKey]
  | cons p rest ih =>
    by_cases h : p.1 = k
    · simp [lookupKey, h]
    · simp [lookupKey, h, ih, Ne.symm h]

theorem lookupKey_isSome_of_mem {α : Type} {k : String} {l : List (String × α)}
    (h : k ∈ l.map Prod.fst) : ∃ v, lookupKey k l = some v := by
  cases hl : lookupKey k l with
  | none => exact absurd (lookupKey_eq_none.mp hl) (by simpa using h)
  | some v => exact ⟨v, rfl⟩

theorem setKey_of_not_mem {α : Type} {k : String} {l : List (String × α)} (v : α)
    (h : k ∉ l.map Prod.fst) : setKey k v l = l ++ [(k, v)] := by
  induction l with
  | nil => simp [setKey]
  | cons p rest ih =>
    simp only [List.map_cons, List.mem_cons] at h
    push_neg at h
    simp [setKey, Ne.symm h.1, ih h.2]

theorem lookupKey_append_right {α : Type} {k : String} {l l2 : List (String × α)}
    (h : k ∉ l.map Prod.fst) : lookupKey k (l ++ l2) = lookupKey k l2 := by
  induction l with
  | nil => simp
  | cons p rest ih =>
    simp only [List.map_cons, List.mem_cons] at h
    push_neg at h
    simp [lookupKey, Ne.symm h.1, ih h.2]

theorem lookupKey_singleton {α : Type} (k : String) (v : α) :
    lookupKey k [(k, v)] = some v := by
  simp [lookupKey]

theorem eraseKey_of_not_mem {α : Type} {k : String} {l : List (String × α)}
    (h : k ∉ l.map Prod.fst) : eraseKey k l = l := by
  induction l with
  | nil => rfl
  | cons p rest ih =>
    simp only [List.map_cons, List.mem_cons] at h
    push_neg at h
    simp [eraseKey, Ne.symm h.1, ih h.2]

theorem eraseKey_append_of_not_mem {α : Type} {k : String} {l l2 : List (String × α)}
    (h : k ∉ l.map Prod.fst) : eraseKey k (l ++ l2) = l ++ eraseKey k l2 := by
  induction l with
  | nil => simp
  | cons p rest ih =>
    simp only [List.map_cons, List.mem_cons] at h
    push_neg at h
    simp [eraseKey, Ne.symm h.1, ih h.2]

theorem map_fst_eraseKey {α : Type} (k : String) (l : List (String × α)) :
    (eraseKey k l).map Prod.fst = (l.map Prod.fst).erase k := by
  induction l with
  | nil => rfl
  | cons p rest ih =>
    by_cases h : p.1 = k
    · simp [eraseKey, h, List.erase_cons_head]
    · simp [eraseKey, h, List.erase_cons_tail, ih]

theorem eraseKey_sublist {α : Type} (k : String) (l : List (String × α)) :
    (eraseKey k l).Sublist l := by
  induction l with
  | nil => simp [eraseKey]
  | cons p rest ih =>
    by_cases h : p.1 = k
    · simp [eraseKey, h]
    · simpa [eraseKey, h] using ih.cons₂ p

theorem snd_perm_of_lookup {α : Type} {k : String} {l : List (String × α)} {v : α}
    (h : lookupKey k l = some v) :
    List.Perm (l.map Prod.snd) (v :: (eraseKey k l).map Prod.snd) := by
  induction l with
  | nil => simp [lookupKey] at h
  | cons p rest ih =>
    by_cases hk : p.1 = k
    · simp only [lookupKey, if_pos hk, Option.some.injEq] at h
      subst h
      simp [eraseKey, hk]
    · simp only [lookupKey, if_neg hk] at h
      simp only [eraseKey, if_neg hk, List.map_cons]
      exact (List.Perm.cons p.2 (ih h)).trans (List.Perm.swap v p.2 _)

theorem lookupKey_eraseKey_ne {α : Type} {k k' : String} {l : List (String × α)}
    (h : k' ≠ k) : lookupKey k' (eraseKey k l) = lookupKey k' l := by
  induction l with
  | nil => rfl
  | cons p rest ih =>
    by_cases hk : p.1 = k
    · subst hk
      simp [eraseKey, lookupKey, Ne.symm h]
    · by_cases hk' : p.1 = k'
      · subst hk'
        simp [eraseKey, lookupKey, hk]
      · simp [eraseKey, lookupKey, hk, hk', ih]

theorem lookupKey_eraseKey_self {α : Type} {k : String} {l : List (String × α)}
    (h : (l.map Prod.fst).Nodup) : lookupKey k (eraseKey k l) = none := by
  rw [lookupKey_eq_none, map_fst_eraseKey]
  simp [h.mem_erase_iff]

/-! Facts about the generated correlation ids and the mock error text. -/

theorem genId_ne_empty (c ts r : String) : genId c ts r ≠ "" := by
  intro h
  have h' := congrArg String.length h
  have hu : "_".length = 1 := rfl
  simp [genId, String.length_append, hu] at h'

theorem strTruthy_of_ne_empty {s : String} (h : s ≠ "") : strTruthy s = true := by
  have he : s.isEmpty = false := by
    rw [Bool.eq_false_iff]
    intro hh
    exact h ((String.isEmpty_iff s).mp hh)
  simp [strTruthy, he]

theorem mockErrorMessage_ne_empty (c : String) : mockErrorMessage c ≠ "" := by
  intro h
  have h' := congrArg String.length h
  simp [mockErrorMessage, String.length_append] at h'
  have : (0:Nat) <
      ("VS Code API is not available in a standard browser environment. Command \"" : String).length :=
    by decide
  omega

theorem some_fst_perm_of_lookup {α : Type} {k : String} {l : List (String × α)} {v : α}
    (h : lookupKey k l = some v) :
    List.Perm (l.map (fun p => some p.1))
      (some k :: (eraseKey k l).map (fun p => some p.1)) := by
  induction l with
  | nil => simp [lookupKey] at h
  | cons p rest ih =>
    by_cases hk : p.1 = k
    · subst hk
      simp [eraseKey, lookupKey]
    · simp only [lookupKey, if_neg hk] at h
      simp only [eraseKey, if_neg hk, List.map_cons]
      exact (List.Perm.cons (some p.1) (ih h)).trans (List.Perm.swap (some k) (some p.1) _)

theorem map_fst_reqEntries (qs : List ReqCall) (n : Nat) :
    (reqEntries qs n).map Prod.fst = qs.map ReqCall.id := by
  induction qs generalizing n with
  | nil => rfl
  | cons q rest ih => simp [reqEntries, ih]

theorem map_snd_reqEntries (qs : List ReqCall) (n : Nat) :
    (reqEntries qs n).map Prod.snd = List.range' n qs.length := by
  induction qs generalizing n with
  | nil => rfl
  | cons q rest ih => simp [reqEntries, ih, List.range'_succ]

theorem map_some_fst_reqEntries (qs : List ReqCall) (n : Nat) :
    (reqEntries qs n).map (fun p => some p.1) = qs.map (fun q => some q.id) := by
  induction qs generalizing n with
  | nil => rfl
  | cons q rest ih => simp [reqEntries, ih]

/-- Unfolding of `request` when the VS Code API is attached. -/
theorem request_attached (s : VscodeApi) (c : String) (p : JValue) (ts r : String)
    (h : s.hasApi = true) :
    request s c p ts r =
      { s with pendingRequests := setKey (genId c ts r) s.nextCall s.pendingRequests,
               nextCall := s.nextCall + 1,
               outbox := s.outbox ++ [⟨c, p, some (genId c ts r), none⟩] } := by
  simp [request, h]

/-- Unfolding of `request` when no VS Code API is attached: the synthesized
failure response is queued on the deferred tick. -/
theorem request_detached (s : VscodeApi) (c : String) (p : JValue) (ts r : String)
    (h : s.hasApi = false) :
    request s c p ts r =
      { s with pendingRequests := setKey (genId c ts r) s.nextCall s.pendingRequests,
               nextCall := s.nextCall + 1,
               timers := s.timers ++
                 [⟨"response", JValue.null, some (genId c ts r), some (mockErrorMessage c)⟩] } := by
  simp [request, h]

/-- Request phase of a concurrent batch: each call appends its fresh entry to
the pending table and settles nothing. -/
theorem run_reqActs (throws : Nat → Bool) (qs : List ReqCall) (s : VscodeApi)
    (hapi : s.hasApi = true)
    (hfresh : ∀ q ∈ qs, q.id ∉ s.pendingRequests.map Prod.fst)
    (hnd : (qs.map ReqCall.id).Nodup) :
    (runActs throws s (qs.map ReqCall.act)).pendingRequests
        = s.pendingRequests ++ reqEntries qs s.nextCall
    ∧ (runActs throws s (qs.map ReqCall.act)).settled = s.settled
    ∧ (runActs throws s (qs.map ReqCall.act)).hasApi = true := by
  induction qs generalizing s with
  | nil => simp [runActs, reqEntries, hapi]
  | cons q rest ih =>
    have hfq : q.id ∉ s.pendingRequests.map Prod.fst := hfresh q (by simp)
    have hset := setKey_of_not_mem (l := s.pendingRequests) (k := q.id) s.nextCall hfq
    have hstep : stepAct throws s q.act =
        { s with pendingRequests := s.pendingRequests ++ [(q.id, s.nextCall)],
                 nextCall := s.nextCall + 1,
                 outbox := s.outbox ++ [⟨q.command, q.payload, some q.id, none⟩] } := by
      show request s q.command q.payload q.ts q.rand = _
      rw [request_attached s q.command q.payload q.ts q.rand hapi]
      rw [show genId q.command q.ts q.rand = q.id from rfl, hset]
    have hrun : runActs throws s ((q :: rest).map ReqCall.act)
        = runActs throws (stepAct throws s q.act) (rest.map ReqCall.act) := by
      simp [runActs]
    simp only [List.map_cons, List.nodup_cons] at hnd
    have hfresh' : ∀ q' ∈ rest, q'.id ∉
        (s.pendingRequests ++ [(q.id, s.nextCall)]).map Prod.fst := by
      intro q' hq'
      rw [List.map_append]
      simp only [List.mem_append, not_or]
      refine ⟨hfresh q' (List.mem_cons_of_mem q hq'), ?_⟩
      simp only [List.map_cons, List.map_nil, List.mem_singleton]
      intro hc
      exact hnd.1 (hc ▸ List.mem_map_of_mem ReqCall.id hq')
    obtain ⟨ha, hb, hc⟩ := ih
      { s with pendingRequests := s.pendingRequests ++ [(q.id, s.nextCall)],
               nextCall := s.nextCall + 1,
               outbox := s.outbox ++ [⟨q.command, q.payload, some q.id, none⟩] }
      (by simpa using hapi) (by simpa using hfresh') hnd.2
    rw [hrun, hstep]
    refine ⟨?_, ?_, ?_⟩
    · rw [ha]
      simp [reqEntries, List.append_assoc]
    · simpa using hb
    · exact hc

/-- Response phase: when the ids of the arriving responses are a permutation
of the pending keys (all of them nonempty), every pending continuation is
settled, the table drains completely, and the indices of the settled calls
extend the settle log by exactly the pending continuations. -/
theorem run_recvActs (throws : Nat → Bool) (rs : List Message) (s : VscodeApi)
    (hapi : s.hasApi = true)
    (hkeys : ∀ k ∈ s.pendingRequests.map Prod.fst, k ≠ "")
    (hperm : List.Perm (rs.map Message.requestId)
      (s.pendingRequests.map (fun p => some p.1))) :
    (runActs throws s (rs.map Act.recv)).pendingRequests = []
    ∧ List.Perm ((runActs throws s (rs.map Act.recv)).settled.map Prod.fst)
        (s.settled.map Prod.fst ++ s.pendingRequests.map Prod.snd) := by
  induction rs generalizing s with
  | nil =>
    have h0 : s.pendingRequests.map (fun p => some p.1) = [] := hperm.symm.eq_nil
    have h1 : s.pendingRequests = [] := by
      cases hp : s.pendingRequests with
      | nil => rfl
      | cons a l => rw [hp] at h0; simp at h0
    simp [runActs, h1]
  | cons m rest ih =>
    have hmem : m.requestId ∈ s.pendingRequests.map (fun p => some p.1) :=
      hperm.subset (by simp)
    obtain ⟨p, hp, hpk⟩ := List.mem_map.mp hmem
    have hkmem : p.1 ∈ s.pendingRequests.map Prod.fst := List.mem_map_of_mem Prod.fst hp
    have hkne : p.1 ≠ "" := hkeys p.1 hkmem
    have htr : optTruthy m.requestId = true := by
      rw [← hpk]; exact strTruthy_of_ne_empty hkne
    obtain ⟨v, hv⟩ := lookupKey_isSome_of_mem hkmem
    have hgd : m.requestId.getD "" = p.1 := by rw [← hpk]; rfl
    set k := if optTruthy m.error then SettleKind.rejected (m.error.getD "")
      else SettleKind.resolved m.payload with hkdef
    have hstep : stepAct throws s (Act.recv m)
        = { s with settled := s.settled ++ [(v, k)],
                   pendingRequests := eraseKey p.1 s.pendingRequests } := by
      simp only [stepAct, hapi, if_pos, handleMessage, htr, if_true, hgd, hv]
    have hrun : runActs throws s ((m :: rest).map Act.recv)
        = runActs throws (stepAct throws s (Act.recv m)) (rest.map Act.recv) := by
      simp [runActs]
    have hkeys' : ∀ k' ∈ (eraseKey p.1 s.pendingRequests).map Prod.fst, k' ≠ "" := by
      intro k' hk'
      exact hkeys k' (((eraseKey_sublist p.1 s.pendingRequests).map Prod.fst).subset hk')
    have hperm' : List.Perm (rest.map Message.requestId)
        ((eraseKey p.1 s.pendingRequests).map (fun p => some p.1)) := by
      have h2 : List.Perm (some p.1 :: rest.map Message.requestId)
          (s.pendingRequests.map (fun p => some p.1)) := by
        rw [hpk]; simpa using hperm
      exact (h2.trans (some_fst_perm_of_lookup hv)).cons_inv
    obtain ⟨ha, hb⟩ := ih
      { s with settled := s.settled ++ [(v, k)],
               pendingRequests := eraseKey p.1 s.pendingRequests }
      (by simpa using hapi) (by simpa using hkeys') (by simpa using hperm')
    rw [hrun, hstep]
    refine ⟨ha, hb.trans ?_⟩
    have hvperm := snd_perm_of_lookup hv
    have heq : ((s.settled ++ [(v, k)]).map Prod.fst)
        ++ (eraseKey p.1 s.pendingRequests).map Prod.snd
        = s.settled.map Prod.fst ++ (v :: (eraseKey p.1 s.pendingRequests).map Prod.snd) := by
      simp
    show List.Perm ((s.settled ++ [(v, k)]).map Prod.fst
        ++ (eraseKey p.1 s.pendingRequests).map Prod.snd)
      (s.settled.map Prod.fst ++ s.pendingRequests.map Prod.snd)
    rw [heq]
    exact List.Perm.append_left _ hvperm.symm

/-- C1: For every call to `request(command, payload)`, the returned promise
eventually resolves or rejects exactly once, and the pending-request table
entry created for that call is removed when it settles: for N concurrently
issued requests with distinct correlation ids, once a response has been
delivered for each id (in any order, and whether each carries an error or a
payload), every call index appears exactly once in the settle log and the
pending table is empty. -/
theorem request_settles_exactly_once (throws : Nat → Bool)
    (qs : List ReqCall) (resps : List Message)
    (hnd : (qs.map ReqCall.id).Nodup)
    (hresp : List.Perm (resps.map Message.requestId) (qs.map (fun q => some q.id))) :
    (runActs throws (initApi true) (qs.map ReqCall.act ++ resps.map Act.recv)).pendingRequests
        = []
    ∧ List.Perm
        ((runActs throws (initApi true)
          (qs.map ReqCall.act ++ resps.map Act.recv)).settled.map Prod.fst)
        (List.range qs.length)
    ∧ ∀ i < qs.length,
        ((runActs throws (initApi true)
          (qs.map ReqCall.act ++ resps.map Act.recv)).settled.map Prod.fst).count i = 1 := by
  have hsplit : runActs throws (initApi true) (qs.map ReqCall.act ++ resps.map Act.recv)
      = runActs throws (runActs throws (initApi true) (qs.map ReqCall.act))
          (resps.map Act.recv) := by
    simp [runActs, List.foldl_append]
  obtain ⟨ha, hb, hc⟩ := run_reqActs throws qs (initApi true) rfl (by simp [initApi]) hnd
  set s1 := runActs throws (initApi true) (qs.map ReqCall.act) with hs1
  have hpend : s1.pendingRequests = reqEntries qs 0 := by simpa [initApi] using ha
  have hsettled : s1.settled = [] := by simpa [initApi] using hb
  have hkeys : ∀ k ∈ s1.pendingRequests.map Prod.fst, k ≠ "" := by
    rw [hpend, map_fst_reqEntries]
    intro k hk
    obtain ⟨q, _, hq⟩ := List.mem_map.mp hk
    exact hq ▸ genId_ne_empty q.command q.ts q.rand
  have hperm : List.Perm (resps.map Message.requestId)
      (s1.pendingRequests.map (fun p => some p.1)) := by
    rw [hpend, map_some_fst_reqEntries]
    exact hresp
  obtain ⟨hfin, hsfin⟩ := run_recvActs throws resps s1 hc hkeys hperm
  rw [hsplit]
  have hrange : List.Perm
      ((runActs throws s1 (resps.map Act.recv)).settled.map Prod.fst)
      (List.range qs.length) := by
    refine hsfin.trans ?_
    rw [hsettled, hpend, map_snd_reqEntries, List.range_eq_range']
    simp
  refine ⟨hfin, hrange, ?_⟩
  intro i hi
  rw [hrange.count_eq]
  exact List.count_eq_one_of_mem (List.nodup_range qs.length) (List.mem_range.mpr hi)

/-- Closed witness for `request_settles_exactly_once`: two concurrent requests
answered out of order (the second one with an error response) both settle
exactly once and drain the pending table. -/
theorem request_settles_exactly_once_witness :
    ((([⟨"getFileContent", JValue.obj [("path", JValue.str "a.txt")], "100", "1"⟩,
        ⟨"updateFileContent", JValue.obj [("path", JValue.str "b.txt")], "100", "2"⟩] :
          List ReqCall).map ReqCall.id).Nodup
    ∧ (runActs (fun _ => false) (initApi true)
        (([⟨"getFileContent", JValue.obj [("path", JValue.str "a.txt")], "100", "1"⟩,
           ⟨"updateFileContent", JValue.obj [("path", JValue.str "b.txt")], "100", "2"⟩] :
             List ReqCall).map ReqCall.act ++
         ([⟨"response", JValue.null, some "updateFileContent_100_2", some "boom"⟩,
           ⟨"response", JValue.str "data", some "getFileContent_100_1", none⟩] :
             List Message).map Act.recv)).pendingRequests = []) := by
  refine ⟨by decide, ?_⟩
  exact (request_settles_exactly_once (fun _ => false)
    [⟨"getFileContent", JValue.obj [("path", JValue.str "a.txt")], "100", "1"⟩,
     ⟨"updateFileContent", JValue.obj [("path", JValue.str "b.txt")], "100", "2"⟩]
    [⟨"response", JValue.null, some "updateFileContent_100_2", some "boom"⟩,
     ⟨"response", JValue.str "data", some "getFileContent_100_1", none⟩]
    (by decide) (by decide)).1

/-- C2: a `request` issued while no transport is attached does not hang: the
`setTimeout`-deferred synthesized failure response, once its tick fires,
rejects the continuation (the mock error text is nonempty, hence truthy) and
removes the pending-table entry, leaving the table as it was and no timer
pending. -/
theorem request_without_host_rejects (throws : Nat → Bool) (s : VscodeApi)
    (c : String) (p : JValue) (ts r : String)
    (hapi : s.hasApi = false) (htim : s.timers = [])
    (hfresh : genId c ts r ∉ s.pendingRequests.map Prod.fst) :
    (runActs throws s [Act.req c p ts r, Act.fire]).settled
        = s.settled ++ [(s.nextCall, SettleKind.rejected (mockErrorMessage c))]
    ∧ (runActs throws s [Act.req c p ts r, Act.fire]).pendingRequests = s.pendingRequests
    ∧ (runActs throws s [Act.req c p ts r, Act.fire]).timers = [] := by
  have hgid : optTruthy (some (genId c ts r)) = true :=
    strTruthy_of_ne_empty (genId_ne_empty c ts r)
  have hmock : optTruthy (some (mockErrorMessage c)) = true :=
    strTruthy_of_ne_empty (mockErrorMessage_ne_empty c)
  have hset := setKey_of_not_mem (l := s.pendingRequests) (k := genId c ts r) s.nextCall hfresh
  have hlook : lookupKey (genId c ts r)
      (s.pendingRequests ++ [(genId c ts r, s.nextCall)]) = some s.nextCall := by
    rw [lookupKey_append_right hfresh]
    exact lookupKey_singleton _ _
  have herase : eraseKey (genId c ts r)
      (s.pendingRequests ++ [(genId c ts r, s.nextCall)]) = s.pendingRequests := by
    rw [eraseKey_append_of_not_mem hfresh]
    simp [eraseKey]
  have hstep1 : stepAct throws s (Act.req c p ts r)
      = { s with pendingRequests := s.pendingRequests ++ [(genId c ts r, s.nextCall)],
                 nextCall := s.nextCall + 1,
                 timers :=
                   [⟨"response", JValue.null, some (genId c ts r), some (mockErrorMessage c)⟩] }
      := by
    show request s c p ts r = _
    rw [request_detached s c p ts r hapi, hset, htim]
    simp
  have hrun : runActs throws s [Act.req c p ts r, Act.fire]
      = stepAct throws (stepAct throws s (Act.req c p ts r)) Act.fire := rfl
  rw [hrun, hstep1]
  refine ⟨?_, ?_, ?_⟩ <;>
    simp [stepAct, handleMessage, hgid, hmock, hlook, herase]

/-- Closed witness for `request_without_host_rejects`: one concrete request
with no host attached settles as a rejection and leaves the table empty. -/
theorem request_without_host_rejects_witness :
    ((initApi false).hasApi = false
    ∧ (runActs (fun _ => false) (initApi false)
        [Act.req "getInitialData" JValue.null "7" "x", Act.fire]).settled
      = [(0, SettleKind.rejected (mockErrorMessage "getInitialData"))]) := by
  refine ⟨rfl, ?_⟩
  have h := request_without_host_rejects (fun _ => false) (initApi false)
    "getInitialData" JValue.null "7" "x" rfl rfl (by decide)
  simpa [initApi] using h.1

/-- C3 (amended): an inbound envelope carrying a non-empty (truthy) requestId
with no matching entry in the pending table is dropped silently: the handler
returns the state entirely unchanged — nothing settles, nothing is invoked,
no map is touched. -/
theorem unmatched_response_dropped (throws : Nat → Bool) (s : VscodeApi) (m : Message)
    (htr : optTruthy m.requestId = true)
    (hnone : lookupKey (m.requestId.getD "") s.pendingRequests = none) :
    handleMessage throws s m = s := by
  simp [handleMessage, htr, hnone]

/-- Closed witness for `unmatched_response_dropped`: a response for an unknown
id leaves a concrete state untouched. -/
theorem unmatched_response_dropped_witness :
    optTruthy (some "zz") = true
    ∧ handleMessage (fun _ => false)
        (⟨[("r", 0)], [("c", 0)], [[7]], [], [], [], 1, true, [], []⟩ : VscodeApi)
        ⟨"response", JValue.null, some "zz", none⟩
      = (⟨[("r", 0)], [("c", 0)], [[7]], [], [], [], 1, true, [], []⟩ : VscodeApi) :=
  ⟨by decide,
    unmatched_response_dropped (fun _ => false)
      ⟨[("r", 0)], [("c", 0)], [[7]], [], [], [], 1, true, [], []⟩
      ⟨"response", JValue.null, some "zz", none⟩ (by decide) (by decide)⟩

/-- C3 counterexample: the claim as stated fails for an envelope whose carried
requestId is the empty string — "" is falsy in JS, so the handler treats the
envelope as a notification and invokes the command's subscriber (callback 7
runs with the payload), rather than dropping it silently. -/
theorem unmatched_response_not_dropped_for_empty_id :
    (⟨"c", JValue.str "pl", some "", none⟩ : Message).requestId ≠ none
    ∧ lookupKey ""
        (⟨[], [("c", 0)], [[7]], [], [], [], 0, true, [], []⟩ : VscodeApi).pendingRequests
      = none
    ∧ (handleMessage (fun _ => false)
        (⟨[], [("c", 0)], [[7]], [], [], [], 0, true, [], []⟩ : VscodeApi)
        ⟨"c", JValue.str "pl", some "", none⟩).calls
      = [(7, JValue.str "pl")]
    ∧ (⟨[], [("c", 0)], [[7]], [], [], [], 0, true, [], []⟩ : VscodeApi).calls = [] := by
  refine ⟨by simp, rfl, rfl, rfl⟩

/-- C4 (amended): an envelope whose non-empty requestId matches a pending
entry settles that entry's continuation — rejecting with the error text when
the `error` field is present and non-empty (JS truthiness), resolving with the
payload when the error is absent or empty — and deletes the entry from the
pending table, leaving every other entry in place. -/
theorem matched_response_settles (throws : Nat → Bool) (s : VscodeApi) (m : Message)
    (idx : Nat)
    (htr : optTruthy m.requestId = true)
    (hmatch : lookupKey (m.requestId.getD "") s.pendingRequests = some idx)
    (hnd : (s.pendingRequests.map Prod.fst).Nodup) :
    (∀ e, m.error = some e → e ≠ "" →
        (handleMessage throws s m).settled = s.settled ++ [(idx, SettleKind.rejected e)])
    ∧ ((m.error = none ∨ m.error = some "") →
        (handleMessage throws s m).settled
          = s.settled ++ [(idx, SettleKind.resolved m.payload)])
    ∧ lookupKey (m.requestId.getD "") (handleMessage throws s m).pendingRequests = none
    ∧ ∀ rid, rid ≠ m.requestId.getD "" →
        lookupKey rid (handleMessage throws s m).pendingRequests
          = lookupKey rid s.pendingRequests := by
  have hsettled : (handleMessage throws s m).settled = s.settled ++
      [(idx, if optTruthy m.error then SettleKind.rejected (m.error.getD "")
        else SettleKind.resolved m.payload)] := by
    simp [handleMessage, htr, hmatch]
  have hpend : (handleMessage throws s m).pendingRequests
      = eraseKey (m.requestId.getD "") s.pendingRequests := by
    simp [handleMessage, htr, hmatch]
  refine ⟨?_, ?_, ?_, ?_⟩
  · intro e he hne
    rw [hsettled]
    simp [he, strTruthy_of_ne_empty hne, optTruthy]
  · intro he
    rw [hsettled]
    rcases he with he | he <;> simp [he, optTruthy, strTruthy, String.isEmpty_iff]
  · rw [hpend]
    exact lookupKey_eraseKey_self hnd
  · intro rid hrid
    rw [hpend]
    exact lookupKey_eraseKey_ne hrid

/-- Closed witness for `matched_response_settles`: a matched error response is
rejected with the error text and its entry removed. -/
theorem matched_response_settles_witness :
    optTruthy (some "r") = true
    ∧ (handleMessage (fun _ => false)
        (⟨[("r", 0), ("q", 1)], [], [], [], [], [], 2, true, [], []⟩ : VscodeApi)
        ⟨"response", JValue.null, some "r", some "boom"⟩).settled
      = [(0, SettleKind.rejected "boom")] := by
  refine ⟨by decide, ?_⟩
  have h := (matched_response_settles (fun _ => false)
    ⟨[("r", 0), ("q", 1)], [], [], [], [], [], 2, true, [], []⟩
    ⟨"response", JValue.null, some "r", some "boom"⟩ 0
    (by decide) (by decide) (by decide)).1 "boom" rfl (by decide)
  simpa using h

/-- C4 counterexample: the claim as stated fails when the `error` field is
present but empty — "" is falsy in JS, so the code resolves the continuation
with the payload instead of rejecting with an error constructed from "". -/
theorem matched_response_empty_error_resolves :
    (⟨"response", JValue.str "ok", some "r", some ""⟩ : Message).error = some ""
    ∧ (handleMessage (fun _ => false)
        (⟨[("r", 0)], [], [], [], [], [], 1, true, [], []⟩ : VscodeApi)
        ⟨"response", JValue.str "ok", some "r", some ""⟩).settled
      = [(0, SettleKind.resolved (JValue.str "ok"))]
    ∧ (handleMessage (fun _ => false)
        (⟨[("r", 0)], [], [], [], [], [], 1, true, [], []⟩ : VscodeApi)
        ⟨"response", JValue.str "ok", some "r", some ""⟩).settled
      ≠ [(0, SettleKind.rejected "")] := by
  refine ⟨rfl, rfl, ?_⟩
  rw [show (handleMessage (fun _ => false)
      (⟨[("r", 0)], [], [], [], [], [], 1, true, [], []⟩ : VscodeApi)
      ⟨"response", JValue.str "ok", some "r", some ""⟩).settled
    = [(0, SettleKind.resolved (JValue.str "ok"))] from rfl]
  simp

/-! Lemmas about the `Set` heap (`setStore`) and the subscriber map. -/

theorem lookupKey_mem {α : Type} {k : String} {l : List (String × α)} {v : α}
    (h : lookupKey k l = some v) : (k, v) ∈ l := by
  induction l with
  | nil => simp [lookupKey] at h
  | cons p rest ih =>
    by_cases hk : p.1 = k
    · simp only [lookupKey, if_pos hk, Option.some.injEq] at h
      have : p = (k, v) := by
        rw [← hk, ← h]
      rw [← this]
      exact List.mem_cons_self p rest
    · simp only [lookupKey, if_neg hk] at h
      exact List.mem_cons_of_mem p (ih h)

theorem getD_append_len {α : Type} (l : List α) (x d : α) :
    (l ++ [x]).getD l.length d = x := by
  have hlt : l.length < (l ++ [x]).length := by simp
  rw [List.getD_eq_getElem _ _ hlt]
  simp

theorem set_append_len {α : Type} (l : List α) (x y : α) :
    (l ++ [x]).set l.length y = l ++ [y] := by
  rw [List.set_append]
  simp

theorem getD_set_self {α : Type} (l : List α) (i : Nat) (x d : α) (h : i < l.length) :
    (l.set i x).getD i d = x := by
  have hlt : i < (l.set i x).length := by simpa using h
  rw [List.getD_eq_getElem _ _ hlt]
  exact List.getElem_set_self hlt

theorem getD_mem_of_lt {α : Type} {l : List α} {i : Nat} (d : α) (h : i < l.length) :
    l.getD i d ∈ l := by
  rw [List.getD_eq_getElem _ _ h]
  exact List.getElem_mem h

theorem addElem_erase (cb : Nat) (l : List Nat) : (addElem cb l).erase cb = l.erase cb := by
  by_cases h : cb ∈ l
  · simp [addElem, h]
  · rw [addElem, if_neg h, List.erase_append_right _ h, List.erase_of_not_mem h]
    simp

/-- Unfolding of `subscribe` when the command has no `Set` yet: a fresh
singleton `Set` is allocated at the end of the store and bound in the map. -/
theorem subscribe_absent (s : VscodeApi) (cmd : String) (cb : Nat)
    (h : lookupKey cmd s.subscribers = none) :
    subscribe s cmd cb =
      ({ s with setStore := s.setStore ++ [[cb]],
                subscribers := s.subscribers ++ [(cmd, s.setStore.length)] },
       ⟨s.setStore.length, cmd, cb⟩) := by
  have hget : (s.setStore ++ [([] : List Nat)]).getD s.setStore.length [] = [] :=
    getD_append_len s.setStore [] []
  have hset : (s.setStore ++ [([] : List Nat)]).set s.setStore.length [cb]
      = s.setStore ++ [[cb]] := set_append_len s.setStore [] [cb]
  simp [subscribe, h, hget, hset, addElem]

/-- Unfolding of `subscribe` when the command already has a `Set`: the
callback is added to it in place and the map is unchanged. -/
theorem subscribe_present (s : VscodeApi) (cmd : String) (cb sid : Nat)
    (h : lookupKey cmd s.subscribers = some sid) :
    subscribe s cmd cb =
      ({ s with setStore := s.setStore.set sid (addElem cb (s.setStore.getD sid [])) },
       ⟨sid, cmd, cb⟩) := by
  simp [subscribe, h]

/-- Unfolding of the unsubscribe closure into its two outcomes. -/
theorem unsubscribe_eq (s : VscodeApi) (u : Unsub) :
    unsubscribe s u =
      (if ((s.setStore.getD u.setRef []).erase u.callback).length = 0 then
        { s with
            setStore := s.setStore.set u.setRef ((s.setStore.getD u.setRef []).erase u.callback),
            subscribers := eraseKey u.command s.subscribers }
      else
        { s with
            setStore :=
              s.setStore.set u.setRef ((s.setStore.getD u.setRef []).erase u.callback) }) := by
  unfold unsubscribe
  by_cases h : ((s.setStore.getD u.setRef []).erase u.callback).length = 0 <;> simp [h]

theorem subsFor_of_lookup_none (s : VscodeApi) (cmd : String)
    (h : lookupKey cmd s.subscribers = none) : subsFor s cmd = [] := by
  simp [subsFor, h]

theorem subsFor_of_lookup_some (s : VscodeApi) (cmd : String) (sid : Nat)
    (h : lookupKey cmd s.subscribers = some sid) : subsFor s cmd = s.setStore.getD sid [] := by
  simp [subsFor, h]

/-- The notification path of `handleMessage` in terms of `subsFor`: all
current subscribers of the command are invoked (appended to the call log),
throwing ones are recorded, and nothing else changes. -/
theorem handleMessage_notification (throws : Nat → Bool) (s : VscodeApi) (m : Message)
    (hrid : optTruthy m.requestId = false) :
    handleMessage throws s m =
      { s with calls := s.calls ++ (subsFor s m.command).map (fun c => (c, m.payload)),
               errLog := s.errLog ++ (subsFor s m.command).filter (fun c => throws c) } := by
  cases hlk : lookupKey m.command s.subscribers with
  | none => simp [handleMessage, hrid, subsFor, hlk]
  | some sid => simp [handleMessage, hrid, subsFor, hlk]

/-- Subscribing a fresh command and immediately invoking the returned closure
allocates one `Set`, empties it again, and restores the subscriber map; the
empty `Set` object stays in the heap. -/
theorem subscribe_unsubscribe_absent (s : VscodeApi) (cmd : String) (cb : Nat)
    (h : lookupKey cmd s.subscribers = none) :
    unsubscribe (subscribe s cmd cb).1 (subscribe s cmd cb).2
      = { s with setStore := s.setStore ++ [[]] } := by
  have hnotmem : cmd ∉ s.subscribers.map Prod.fst := lookupKey_eq_none.mp h
  have hcur : ((s.setStore ++ [[cb]]).getD s.setStore.length []).erase cb = [] := by
    rw [getD_append_len]
    simp
  have hstore : (s.setStore ++ [[cb]]).set s.setStore.length
      (((s.setStore ++ [[cb]]).getD s.setStore.length []).erase cb) = s.setStore ++ [[]] := by
    rw [hcur]
    exact set_append_len s.setStore [cb] []
  have herase : eraseKey cmd (s.subscribers ++ [(cmd, s.setStore.length)]) = s.subscribers := by
    rw [eraseKey_append_of_not_mem hnotmem]
    simp [eraseKey]
  have hstore2 : (s.setStore ++ [[cb]]).set s.setStore.length ([] : List Nat)
      = s.setStore ++ [[]] := set_append_len s.setStore [cb] []
  rw [subscribe_absent s cmd cb h, unsubscribe_eq]
  simp only [hcur, hstore, hstore2, herase, List.length_nil, if_pos]

/-- C5: `subscribe(cmd, cb)` returns a closure that removes exactly this
callback: after subscribing and then invoking the closure, the callbacks a
`cmd` notification reaches are exactly the previous ones minus `cb`, `cb` is
not among them (a subsequent notification for `cmd` appends only the
remaining callbacks' invocations to the call log), and when `cb` was the last
callback registered for `cmd`, the command's binding itself is removed from
the subscriber map. -/
theorem subscribe_unsubscribe_removes_callback (throws : Nat → Bool) (s : VscodeApi)
    (cmd : String) (cb : Nat) (hwf : WFsubs s) :
    subsFor (unsubscribe (subscribe s cmd cb).1 (subscribe s cmd cb).2) cmd
        = (subsFor s cmd).erase cb
    ∧ cb ∉ subsFor (unsubscribe (subscribe s cmd cb).1 (subscribe s cmd cb).2) cmd
    ∧ ((subsFor s cmd).erase cb = [] →
        lookupKey cmd
          (unsubscribe (subscribe s cmd cb).1 (subscribe s cmd cb).2).subscribers = none)
    ∧ ∀ pl,
        (handleMessage throws (unsubscribe (subscribe s cmd cb).1 (subscribe s cmd cb).2)
            ⟨cmd, pl, none, none⟩).calls
          = (unsubscribe (subscribe s cmd cb).1 (subscribe s cmd cb).2).calls
              ++ ((subsFor s cmd).erase cb).map (fun c => (c, pl)) := by
  obtain ⟨hkeys, hbound, hnodups⟩ := hwf
  cases hlk : lookupKey cmd s.subscribers with
  | none =>
    have huns := subscribe_unsubscribe_absent s cmd cb hlk
    have hsubs0 : subsFor s cmd = [] := subsFor_of_lookup_none _ _ hlk
    have hsubs2 : subsFor (unsubscribe (subscribe s cmd cb).1 (subscribe s cmd cb).2) cmd
        = [] := by
      rw [huns]
      exact subsFor_of_lookup_none _ _ hlk
    refine ⟨?_, ?_, ?_, ?_⟩
    · rw [hsubs2, hsubs0]
      simp
    · rw [hsubs2]
      simp
    · intro _
      rw [huns]
      exact hlk
    · intro pl
      rw [handleMessage_notification throws _ ⟨cmd, pl, none, none⟩ rfl, hsubs2, hsubs0]
      simp
  | some sid =>
    have hsid : sid < s.setStore.length := hbound _ (lookupKey_mem hlk)
    have hnd0 : (s.setStore.getD sid []).Nodup := hnodups _ (getD_mem_of_lt [] hsid)
    have hsub := subscribe_present s cmd cb sid hlk
    have hsubs0 : subsFor s cmd = s.setStore.getD sid [] := subsFor_of_lookup_some _ _ sid hlk
    have hcur : ((s.setStore.set sid (addElem cb (s.setStore.getD sid []))).getD sid []).erase cb
        = (s.setStore.getD sid []).erase cb := by
      rw [getD_set_self _ _ _ _ (by simpa using hsid), addElem_erase]
    have hstore : (s.setStore.set sid (addElem cb (s.setStore.getD sid []))).set sid
        ((s.setStore.getD sid []).erase cb)
        = s.setStore.set sid ((s.setStore.getD sid []).erase cb) := List.set_set _ _ _ _
    have hget2 : (s.setStore.set sid ((s.setStore.getD sid []).erase cb)).getD sid []
        = (s.setStore.getD sid []).erase cb := getD_set_self _ _ _ _ (by simpa using hsid)
    by_cases hz : ((s.setStore.getD sid []).erase cb).length = 0
    · have hze : (s.setStore.getD sid []).erase cb = [] := List.length_eq_zero.mp hz
      have huns : unsubscribe (subscribe s cmd cb).1 (subscribe s cmd cb).2
          = { s with setStore := s.setStore.set sid ((s.setStore.getD sid []).erase cb),
                     subscribers := eraseKey cmd s.subscribers } := by
        rw [hsub, unsubscribe_eq]
        simp only [hcur, hstore]
        rw [if_pos hz]
      have hlk2 : lookupKey cmd (eraseKey cmd s.subscribers) = none :=
        lookupKey_eraseKey_self hkeys
      have hsubs2 : subsFor (unsubscribe (subscribe s cmd cb).1 (subscribe s cmd cb).2) cmd
          = [] := by
        rw [huns]
        exact subsFor_of_lookup_none _ _ hlk2
      refine ⟨?_, ?_, ?_, ?_⟩
      · rw [hsubs2, hsubs0, hze]
      · rw [hsubs2]
        simp
      · intro _
        rw [huns]
        exact hlk2
      · intro pl
        rw [handleMessage_notification throws _ ⟨cmd, pl, none, none⟩ rfl, hsubs2, hsubs0, hze]
    · have huns : unsubscribe (subscribe s cmd cb).1 (subscribe s cmd cb).2
          = { s with setStore := s.setStore.set sid ((s.setStore.getD sid []).erase cb) } := by
        rw [hsub, unsubscribe_eq]
        simp only [hcur, hstore]
        rw [if_neg hz]
      have hlk3 : lookupKey cmd
          ({ s with setStore := s.setStore.set sid ((s.setStore.getD sid []).erase cb) }
            : VscodeApi).subscribers = some sid := hlk
      have hsubs2 : subsFor (unsubscribe (subscribe s cmd cb).1 (subscribe s cmd cb).2) cmd
          = (s.setStore.getD sid []).erase cb := by
        rw [huns, subsFor_of_lookup_some _ _ sid hlk3]
        exact hget2
      refine ⟨?_, ?_, ?_, ?_⟩
      · rw [hsubs2, hsubs0]
      · rw [hsubs2]
        intro hmem2
        exact absurd ((hnd0.mem_erase_iff.mp hmem2).1) (by simp)
      · intro he
        rw [hsubs0] at he
        exact absurd (by rw [he]; rfl) hz
      · intro pl
        rw [handleMessage_notification throws _ ⟨cmd, pl, none, none⟩ rfl, hsubs2, hsubs0]

/-- Closed witness for `subscribe_unsubscribe_removes_callback`: in a state
where callbacks 5 and 6 are registered for `"c"`, subscribing 5 again and
invoking the returned closure leaves exactly callback 6 registered. -/
theorem subscribe_unsubscribe_removes_callback_witness :
    WFsubs (⟨[], [("c", 0)], [[5, 6]], [], [], [], 0, true, [], []⟩ : VscodeApi)
    ∧ subsFor (unsubscribe
        (subscribe (⟨[], [("c", 0)], [[5, 6]], [], [], [], 0, true, [], []⟩ : VscodeApi) "c" 5).1
        (subscribe (⟨[], [("c", 0)], [[5, 6]], [], [], [], 0, true, [], []⟩ : VscodeApi) "c" 5).2)
        "c" = [6] := by
  refine ⟨by decide, ?_⟩
  rw [(subscribe_unsubscribe_removes_callback (fun _ => false)
    ⟨[], [("c", 0)], [[5, 6]], [], [], [], 0, true, [], []⟩ "c" 5 (by decide)).1]
  rfl

/-- C6: an inbound notification envelope (no requestId) appends to the call
log one invocation per callback registered for its command, each with the
notification payload (the delivered list is duplicate-free, so each callback
runs exactly once); throwing callbacks are recorded in the error log without
affecting delivery to the others or any other component of the state; and a
notification whose command has no subscribers leaves the state exactly as it
was. -/
theorem notification_delivery (throws : Nat → Bool) (s : VscodeApi) (m : Message)
    (hrid : m.requestId = none) (hwf : WFsubs s) :
    (handleMessage throws s m).calls
        = s.calls ++ (subsFor s m.command).map (fun c => (c, m.payload))
    ∧ (handleMessage throws s m).errLog
        = s.errLog ++ (subsFor s m.command).filter (fun c => throws c)
    ∧ (handleMessage throws s m).pendingRequests = s.pendingRequests
    ∧ (handleMessage throws s m).subscribers = s.subscribers
    ∧ (handleMessage throws s m).setStore = s.setStore
    ∧ (handleMessage throws s m).settled = s.settled
    ∧ (subsFor s m.command).Nodup
    ∧ (lookupKey m.command s.subscribers = none → handleMessage throws s m = s) := by
  obtain ⟨hkeys, hbound, hnodups⟩ := hwf
  have hnodup : (subsFor s m.command).Nodup := by
    cases hlk : lookupKey m.command s.subscribers with
    | none => simp [subsFor, hlk]
    | some sid =>
      have hsid : sid < s.setStore.length := hbound _ (lookupKey_mem hlk)
      have := hnodups _ (getD_mem_of_lt ([] : List Nat) hsid)
      rw [subsFor_of_lookup_some _ _ sid hlk]
      exact this
  have hfalse : optTruthy m.requestId = false := by rw [hrid]; rfl
  have hmsg := handleMessage_notification throws s m hfalse
  refine ⟨by rw [hmsg], by rw [hmsg], by rw [hmsg], by rw [hmsg], by rw [hmsg],
    by rw [hmsg], hnodup, ?_⟩
  intro hnone
  rw [hmsg, subsFor_of_lookup_none _ _ hnone]
  simp

/-- Closed witness for `notification_delivery`: with callbacks 1 and 2
registered for `"evt"` and callback 1 throwing, a notification reaches both
(in order) and logs the caught exception of callback 1. -/
theorem notification_delivery_witness :
    (⟨"evt", JValue.str "x", none, none⟩ : Message).requestId = none
    ∧ WFsubs (⟨[], [("evt", 0)], [[1, 2]], [], [], [], 0, true, [], []⟩ : VscodeApi)
    ∧ (handleMessage (fun c => c == 1)
        (⟨[], [("evt", 0)], [[1, 2]], [], [], [], 0, true, [], []⟩ : VscodeApi)
        ⟨"evt", JValue.str "x", none, none⟩).calls
      = [(1, JValue.str "x"), (2, JValue.str "x")] := by
  refine ⟨rfl, by decide, ?_⟩
  rw [(notification_delivery (fun c => c == 1)
    ⟨[], [("evt", 0)], [[1, 2]], [], [], [], 0, true, [], []⟩
    ⟨"evt", JValue.str "x", none, none⟩ rfl (by decide)).1]
  rfl

/-- C10: the closure returned by `subscribe` captures the `Set` object itself;
invoked a second time after its set was emptied (which deleted the command
binding) and after a *new* subscriber was registered under the same command,
the stale closure finds its captured set empty and deletes the command's
binding from the map again — silently unsubscribing the new set, whose
callback it never registered, while that set still holds the callback. -/
theorem stale_unsubscribe_deletes_new_set (s : VscodeApi) (cmd : String) (cb1 cb2 : Nat)
    (h : lookupKey cmd s.subscribers = none) :
    lookupKey cmd
        (unsubscribe (subscribe (unsubscribe (subscribe s cmd cb1).1 (subscribe s cmd cb1).2)
            cmd cb2).1 (subscribe s cmd cb1).2).subscribers = none
    ∧ (unsubscribe (subscribe (unsubscribe (subscribe s cmd cb1).1 (subscribe s cmd cb1).2)
            cmd cb2).1 (subscribe s cmd cb1).2).setStore.getD
        (subscribe (unsubscribe (subscribe s cmd cb1).1 (subscribe s cmd cb1).2)
            cmd cb2).2.setRef []
      = [cb2]
    ∧ subsFor (unsubscribe (subscribe (unsubscribe (subscribe s cmd cb1).1
        (subscribe s cmd cb1).2) cmd cb2).1 (subscribe s cmd cb1).2) cmd = [] := by
  have hnotmem : cmd ∉ s.subscribers.map Prod.fst := lookupKey_eq_none.mp h
  have hs1 := subscribe_unsubscribe_absent s cmd cb1 h
  have htok1 : (subscribe s cmd cb1).2 = ⟨s.setStore.length, cmd, cb1⟩ := by
    rw [subscribe_absent s cmd cb1 h]
  have hlk1 : lookupKey cmd
      ({ s with setStore := s.setStore ++ [[]] } : VscodeApi).subscribers = none := h
  have hp2 : subscribe { s with setStore := s.setStore ++ [[]] } cmd cb2
      = ({ s with setStore := (s.setStore ++ [[]]) ++ [[cb2]],
                  subscribers := s.subscribers ++ [(cmd, (s.setStore ++ [[]]).length)] },
         ⟨(s.setStore ++ [[]]).length, cmd, cb2⟩) := by
    rw [subscribe_absent _ cmd cb2 hlk1]
  rw [hs1, hp2, htok1]
  have hget : (((s.setStore ++ [[]]) ++ [[cb2]]).getD s.setStore.length []).erase cb1 = [] := by
    rw [List.getD_append _ _ _ _ (by simp), getD_append_len]
    simp
  have hset : ((s.setStore ++ [[]]) ++ [[cb2]]).set s.setStore.length ([] : List Nat)
      = (s.setStore ++ [[]]) ++ [[cb2]] := by
    rw [List.set_append, if_pos (by simp), set_append_len]
  have herase2 : eraseKey cmd (s.subscribers ++ [(cmd, (s.setStore ++ [[]]).length)])
      = s.subscribers := by
    rw [eraseKey_append_of_not_mem hnotmem]
    simp [eraseKey]
  rw [unsubscribe_eq]
  simp only [hget, hset, List.length_nil, if_pos, herase2]
  refine ⟨h, ?_, ?_⟩
  · exact getD_append_len (s.setStore ++ [[]]) [cb2] []
  · exact subsFor_of_lookup_none _ _ h

/-- Closed witness for `stale_unsubscribe_deletes_new_set`: starting from the
freshly constructed bridge, the stale closure wipes the binding created for
the second subscriber while its set still holds callback 1. -/
theorem stale_unsubscribe_deletes_new_set_witness :
    lookupKey "c" (initApi true).subscribers = none
    ∧ subsFor (unsubscribe (subscribe (unsubscribe (subscribe (initApi true) "c" 0).1
        (subscribe (initApi true) "c" 0).2) "c" 1).1 (subscribe (initApi true) "c" 0).2) "c"
      = [] :=
  ⟨rfl, (stale_unsubscribe_deletes_new_set (initApi true) "c" 0 1 rfl).2.2⟩

/-! Host dispatcher claims. -/

/-- C7 (amended): when a workspace folder is open, a Request whose command
name is outside the catalog falls through the dispatcher's switch: no
envelope is posted at all and the files are untouched.  (When no workspace is
open the guard in front of the switch answers even unknown commands.) -/
theorem unknown_command_ignored (env : HostEnv) (command : String) (payload : JValue)
    (requestId : String)
    (hws : env.hasWorkspace = true)
    (hcmd : command ∉ catalog) :
    dispatch env command payload requestId = ⟨[], env.files⟩ := by
  simp only [catalog, List.mem_cons, List.not_mem_nil, or_false, not_or] at hcmd
  obtain ⟨h1, h2, h3, h4, h5⟩ := hcmd
  simp [dispatch, hws, h1, h2, h3, h4, h5]

/-- Closed witness for `unknown_command_ignored`: a bogus command with a
workspace open produces no envelope. -/
theorem unknown_command_ignored_witness :
    ("bogusCommand" ∉ catalog)
    ∧ dispatch ⟨true, "ws", "/ws", [("a.txt", "hello")], none, none, 5, "ENOENT"⟩
        "bogusCommand" JValue.null "r1" = ⟨[], [("a.txt", "hello")]⟩ :=
  ⟨by decide, unknown_command_ignored _ _ _ _ rfl (by decide)⟩

/-- C7 counterexample: the claim as stated fails when no workspace is open —
the guard in front of the switch replies to the unknown command with an error
Response envelope carrying its requestId, rather than ignoring it. -/
theorem unknown_command_answered_without_workspace :
    ("bogusCommand" ∉ catalog)
    ∧ dispatch ⟨false, "ws", "/ws", [], none, none, 5, "ENOENT"⟩
        "bogusCommand" JValue.null "r1"
      = ⟨[⟨"response", JValue.null, some "r1", some "No workspace is open."⟩], []⟩
    ∧ isResponseFor "r1"
        (⟨"response", JValue.null, some "r1", some "No workspace is open."⟩ : Message)
      = true :=
  ⟨by decide, rfl, rfl⟩

/-- C8 (amended): for a `deleteFile` request with a workspace open — when the
user declines or dismisses the confirmation dialog, the dispatcher replies
with the cancellation error response, the files are untouched, and zero tree
notifications are posted; when the user confirms and the file exists, the
file is removed, the success response is sent, and exactly one tree
notification is posted; when the user confirms but the file does not exist,
`vscode.workspace.fs.delete` throws, so an error response is posted with zero
notifications and no file change. -/
theorem deleteFile_dispatch (env : HostEnv) (payload : JValue) (requestId : String)
    (hws : env.hasWorkspace = true) :
    (env.confirmAnswer ≠ some "Delete" →
      dispatch env "deleteFile" payload requestId
        = ⟨[⟨"response", JValue.null, some requestId, some "Deletion cancelled by user."⟩],
           env.files⟩
      ∧ treeNotifCount (dispatch env "deleteFile" payload requestId).posted = 0)
    ∧ (env.confirmAnswer = some "Delete" →
        (lookupKey (payload.getStr "path") env.files).isSome = true →
      dispatch env "deleteFile" payload requestId
        = ⟨[⟨"refreshFileTree", JValue.null, none, none⟩,
            ⟨"response", JValue.obj [("success", JValue.bool true)], some requestId, none⟩],
           eraseKey (payload.getStr "path") env.files⟩
      ∧ treeNotifCount (dispatch env "deleteFile" payload requestId).posted = 1)
    ∧ (env.confirmAnswer = some "Delete" →
        lookupKey (payload.getStr "path") env.files = none →
      dispatch env "deleteFile" payload requestId
        = ⟨[⟨"response", JValue.null, some requestId,
             some ("Failed to delete file " ++ payload.getStr "path" ++ ": "
               ++ env.fsErrorMessage)⟩],
           env.files⟩
      ∧ treeNotifCount (dispatch env "deleteFile" payload requestId).posted = 0) := by
  refine ⟨?_, ?_, ?_⟩
  · intro hc
    have hd : dispatch env "deleteFile" payload requestId
        = ⟨[⟨"response", JValue.null, some requestId, some "Deletion cancelled by user."⟩],
           env.files⟩ := by
      simp [dispatch, hws, hc]
    exact ⟨hd, by rw [hd]; rfl⟩
  · intro hc hex
    have hd : dispatch env "deleteFile" payload requestId
        = ⟨[⟨"refreshFileTree", JValue.null, none, none⟩,
            ⟨"response", JValue.obj [("success", JValue.bool true)], some requestId, none⟩],
           eraseKey (payload.getStr "path") env.files⟩ := by
      simp [dispatch, hws, hc, hex]
    exact ⟨hd, by rw [hd]; rfl⟩
  · intro hc hmiss
    have hd : dispatch env "deleteFile" payload requestId
        = ⟨[⟨"response", JValue.null, some requestId,
             some ("Failed to delete file " ++ payload.getStr "path" ++ ": "
               ++ env.fsErrorMessage)⟩],
           env.files⟩ := by
      simp [dispatch, hws, hc, hmiss]
    exact ⟨hd, by rw [hd]; rfl⟩

/-- Closed witness for `deleteFile_dispatch`: declining the dialog cancels
with zero notifications, and confirming with the file present deletes it with
exactly one notification. -/
theorem deleteFile_dispatch_witness :
    treeNotifCount (dispatch ⟨true, "ws", "/ws", [("a.txt", "hello")], none, none, 5, "ENOENT"⟩
        "deleteFile" (JValue.obj [("path", JValue.str "a.txt")]) "r1").posted = 0
    ∧ treeNotifCount (dispatch
        ⟨true, "ws", "/ws", [("a.txt", "hello")], some "Delete", none, 5, "ENOENT"⟩
        "deleteFile" (JValue.obj [("path", JValue.str "a.txt")]) "r1").posted = 1
    ∧ (dispatch ⟨true, "ws", "/ws", [("a.txt", "hello")], some "Delete", none, 5, "ENOENT"⟩
        "deleteFile" (JValue.obj [("path", JValue.str "a.txt")]) "r1").files = [] := by
  refine ⟨?_, ?_, ?_⟩
  · exact ((deleteFile_dispatch ⟨true, "ws", "/ws", [("a.txt", "hello")], none, none, 5,
      "ENOENT"⟩ (JValue.obj [("path", JValue.str "a.txt")]) "r1" rfl).1 (by simp)).2
  · exact (((deleteFile_dispatch ⟨true, "ws", "/ws", [("a.txt", "hello")], some "Delete", none,
      5, "ENOENT"⟩ (JValue.obj [("path", JValue.str "a.txt")]) "r1" rfl).2.1 rfl (by decide)).2)
  · rw [(((deleteFile_dispatch ⟨true, "ws", "/ws", [("a.txt", "hello")], some "Delete", none,
      5, "ENOENT"⟩ (JValue.obj [("path", JValue.str "a.txt")]) "r1" rfl).2.1 rfl (by decide)).1)]
    rfl

/-- C8 counterexample: the claim's affirmative branch fails when the file
does not exist — the user confirms, yet the deletion throws, an error
response is posted, and zero tree notifications are broadcast instead of
exactly one. -/
theorem deleteFile_confirmed_missing_file :
    (⟨true, "ws", "/ws", [], some "Delete", none, 5, "ENOENT"⟩ : HostEnv).confirmAnswer
      = some "Delete"
    ∧ treeNotifCount (dispatch ⟨true, "ws", "/ws", [], some "Delete", none, 5, "ENOENT"⟩
        "deleteFile" (JValue.obj [("path", JValue.str "a.txt")]) "r1").posted = 0
    ∧ (dispatch ⟨true, "ws", "/ws", [], some "Delete", none, 5, "ENOENT"⟩
        "deleteFile" (JValue.obj [("path", JValue.str "a.txt")]) "r1").posted
      = [⟨"response", JValue.null, some "r1", some "Failed to delete file a.txt: ENOENT"⟩] :=
  ⟨rfl, rfl, rfl⟩

/-- C9: for a `createFile` request with a workspace open — when the path
prompt is dismissed or returns the empty string (falsy in JS), the dispatcher
replies with the cancellation error response, creates no file, and posts no
tree notification; when the prompt returns a non-empty path p, it creates the
empty file at p, replies `{success: true, path: p}`, and posts exactly one
tree notification. -/
theorem createFile_dispatch (env : HostEnv) (payload : JValue) (requestId : String)
    (hws : env.hasWorkspace = true) :
    ((env.inputBoxAnswer = none ∨ env.inputBoxAnswer = some "") →
      dispatch env "createFile" payload requestId
        = ⟨[⟨"response", JValue.null, some requestId,
             some "File creation cancelled by user."⟩], env.files⟩
      ∧ treeNotifCount (dispatch env "createFile" payload requestId).posted = 0)
    ∧ (∀ p, env.inputBoxAnswer = some p → p ≠ "" →
      dispatch env "createFile" payload requestId
        = ⟨[⟨"refreshFileTree", JValue.null, none, none⟩,
            ⟨"response", JValue.obj [("success", JValue.bool true), ("path", JValue.str p)],
              some requestId, none⟩],
           setKey p "" env.files⟩
      ∧ treeNotifCount (dispatch env "createFile" payload requestId).posted = 1) := by
  refine ⟨?_, ?_⟩
  · intro hc
    have hd : dispatch env "createFile" payload requestId
        = ⟨[⟨"response", JValue.null, some requestId,
             some "File creation cancelled by user."⟩], env.files⟩ := by
      rcases hc with hc | hc <;> simp [dispatch, hws, hc]
    exact ⟨hd, by rw [hd]; rfl⟩
  · intro p hp hne
    have hd : dispatch env "createFile" payload requestId
        = ⟨[⟨"refreshFileTree", JValue.null, none, none⟩,
            ⟨"response", JValue.obj [("success", JValue.bool true), ("path", JValue.str p)],
              some requestId, none⟩],
           setKey p "" env.files⟩ := by
      simp [dispatch, hws, hp, hne]
    exact ⟨hd, by rw [hd]; rfl⟩

/-- Closed witness for `createFile_dispatch`: the spec's scenario — the user
supplies `"src/new.ts"` at the prompt; the reply is
`{success: true, path: "src/new.ts"}`, the empty file appears, and exactly
one tree notification is posted. -/
theorem createFile_dispatch_witness :
    (dispatch ⟨true, "ws", "/ws", [("a.txt", "hello")], none, some "src/new.ts", 5, "ENOENT"⟩
        "createFile" JValue.null "r2"
      = ⟨[⟨"refreshFileTree", JValue.null, none, none⟩,
          ⟨"response",
            JValue.obj [("success", JValue.bool true), ("path", JValue.str "src/new.ts")],
            some "r2", none⟩],
         [("a.txt", "hello"), ("src/new.ts", "")]⟩)
    ∧ treeNotifCount (dispatch
        ⟨true, "ws", "/ws", [("a.txt", "hello")], none, some "src/new.ts", 5, "ENOENT"⟩
        "createFile" JValue.null "r2").posted = 1 := by
  have h := (createFile_dispatch
    ⟨true, "ws", "/ws", [("a.txt", "hello")], none, some "src/new.ts", 5, "ENOENT"⟩
    JValue.null "r2" rfl).2 "src/new.ts" rfl (by decide)
  exact ⟨h.1, h.2⟩

end Nov4
